import Mathlib

/-!
Verification of the dxf-diff-processor core against its specification.

The definitions below are a shallow embedding of the Python sources:
- `src/scripts/dxf_processor.py`   (class DXFPostProcessor)
- `src/scripts/diff_label_processor.py` (process_csv_file)
- `src/core/processor.py`          (DXFProcessor.process_file_pairs)

Real-valued quantities (millimetres) are modelled with `ℚ`; Python `int` is
modelled with `ℤ`.  Python strings are Lean `String`s; `str.strip()` is
modelled by `pyStrip` over the character list (ASCII whitespace, which covers
every character the repository's data uses).
-/

namespace DxfDiff

/-! ## Text normalizer (`DXFPostProcessor._normalize_whitespace`) -/

/-- Python `str.strip()` on a character list: drop whitespace from both ends. -/
def stripList (l : List Char) : List Char :=
  ((l.dropWhile Char.isWhitespace).reverse.dropWhile Char.isWhitespace).reverse

/-- Python `str.strip()`. -/
def pyStrip (s : String) : String :=
  String.mk (stripList s.data)

/-- Python `str.lower()` (the color names in this repository are ASCII). -/
def pyLower (s : String) : String :=
  String.mk (s.data.map Char.toLower)

/-- Collapse every run of whitespace characters to a single space.
`prevWs` records whether the previous character was whitespace, mirroring the
behaviour of the regex substitution `\s+ -> " "`. -/
def collapseWsAux : Bool → List Char → List Char
  | _, [] => []
  | prevWs, c :: cs =>
    if c.isWhitespace then
      if prevWs then collapseWsAux true cs
      else ' ' :: collapseWsAux true cs
    else c :: collapseWsAux false cs

/-- `DXFPostProcessor._normalize_whitespace`: strip the ends, then replace each
maximal run of whitespace by a single space (`re.sub(r"\s+", " ", text.strip())`). -/
def normalizeWhitespace (s : String) : String :=
  String.mk (collapseWsAux false (stripList s.data))

/-! ## Color resolver (`DXFPostProcessor._get_text_color_for_entity`) -/

/-- The fixed DXF color palette `self.color_mapping` from
`DXFPostProcessor.__init__` (keys are the eight lowercase names). -/
def color_mapping : String → Option ℤ
  | "white" => some 7
  | "red" => some 1
  | "yellow" => some 2
  | "green" => some 3
  | "cyan" => some 4
  | "blue" => some 5
  | "magenta" => some 6
  | "black" => some 0
  | _ => none

/-- Configuration state of `DXFPostProcessor` (constructor arguments).
The two rule tables are association lists in declaration order, modelling
Python dicts (insertion-ordered). -/
structure DXFPostProcessor where
  line_width_mm : ℚ
  line_color : ℤ
  text_color_mapping : List (String × List String)
  char_color_mapping : List (String × List String)
  min_font_size_mm : ℚ

/-- The doubly nested rule-matching loop of `_get_text_color_for_entity`:
walk the table in declaration order and return the color name of the first
entry one of whose rule strings, whitespace-normalized, equals `nt`. -/
def firstRuleMatch : List (String × List String) → String → Option String
  | [], _ => none
  | (color_name, string_list) :: rest, nt =>
    match string_list.find? (fun ms => normalizeWhitespace ms == nt) with
    | some _ => some color_name
    | none => firstRuleMatch rest nt

/-- `DXFPostProcessor._get_text_color_for_entity`: empty text gets the default
line color; otherwise char-color rules are tried first, then text-color rules,
then the default.  A matched color name is translated through `color_mapping`
(lower-cased), falling back to the default line color for unknown names. -/
def get_text_color_for_entity (p : DXFPostProcessor) (text_content : String) : ℤ :=
  if text_content = "" then p.line_color
  else
    let normalized_text := normalizeWhitespace text_content
    match firstRuleMatch p.char_color_mapping normalized_text with
    | some color_name => (color_mapping (pyLower color_name)).getD p.line_color
    | none =>
      match firstRuleMatch p.text_color_mapping normalized_text with
      | some color_name => (color_mapping (pyLower color_name)).getD p.line_color
      | none => p.line_color

/-- A rule table has an entry matching normalized text `nt`. -/
def tableHasMatch (tbl : List (String × List String)) (nt : String) : Prop :=
  ∃ e ∈ tbl, ∃ r ∈ e.2, normalizeWhitespace r = nt

lemma firstRuleMatch_eq_none_iff (tbl : List (String × List String)) (nt : String) :
    firstRuleMatch tbl nt = none ↔ ¬ tableHasMatch tbl nt := by
  induction tbl with
  | nil =>
    simp [firstRuleMatch, tableHasMatch]
  | cons e rest ih =>
    obtain ⟨cname, rules⟩ := e
    simp only [firstRuleMatch]
    cases hf : rules.find? (fun ms => normalizeWhitespace ms == nt) with
    | some r =>
      simp only [tableHasMatch]
      constructor
      · intro h; exact absurd h (by simp)
      · intro h
        exfalso
        apply h
        refine ⟨(cname, rules), by simp, r, List.mem_of_find?_eq_some hf, ?_⟩
        have := List.find?_some hf
        simpa using this
    | none =>
      rw [ih]
      simp only [tableHasMatch]
      constructor
      · intro h hc
        obtain ⟨e, he, r, hr, hnr⟩ := hc
        rcases List.mem_cons.mp he with he | he
        · subst he
          have := List.find?_eq_none.mp hf r hr
          simp [hnr] at this
        · exact h ⟨e, he, r, hr, hnr⟩
      · intro h hc
        obtain ⟨e, he, r, hr, hnr⟩ := hc
        exact h ⟨e, List.mem_cons_of_mem _ he, r, hr, hnr⟩

lemma firstRuleMatch_isSome_of_match {tbl : List (String × List String)} {nt : String}
    (h : tableHasMatch tbl nt) : (firstRuleMatch tbl nt).isSome := by
  cases hm : firstRuleMatch tbl nt with
  | none => exact absurd h ((firstRuleMatch_eq_none_iff tbl nt).mp hm)
  | some c => rfl

/-- If no entry before `(cname, rules)` matches and `rules` contains a match,
the first match is `cname` (declaration order wins). -/
lemma firstRuleMatch_append (pre : List (String × List String)) (cname : String)
    (rules : List String) (post : List (String × List String)) (nt : String)
    (hpre : ∀ e ∈ pre, ∀ r ∈ e.2, normalizeWhitespace r ≠ nt)
    (hmatch : ∃ r ∈ rules, normalizeWhitespace r = nt) :
    firstRuleMatch (pre ++ (cname, rules) :: post) nt = some cname := by
  induction pre with
  | nil =>
    simp only [List.nil_append, firstRuleMatch]
    obtain ⟨r, hr, hnr⟩ := hmatch
    cases hf : rules.find? (fun ms => normalizeWhitespace ms == nt) with
    | some _ => rfl
    | none =>
      have := List.find?_eq_none.mp hf r hr
      simp [hnr] at this
  | cons e rest ih =>
    obtain ⟨c0, rules0⟩ := e
    simp only [List.cons_append, firstRuleMatch]
    cases hf : rules0.find? (fun ms => normalizeWhitespace ms == nt) with
    | some r =>
      exfalso
      have hm := List.mem_of_find?_eq_some hf
      have hp := List.find?_some hf
      have : normalizeWhitespace r = nt := by simpa using hp
      exact hpre (c0, rules0) (by simp) r hm this
    | none =>
      exact ih (fun e he r hr => hpre e (List.mem_cons_of_mem _ he) r hr)

lemma text_ne_empty_of_normalized {text : String} (h : normalizeWhitespace text ≠ "") :
    ¬ text = "" := by
  intro he
  subst he
  exact h rfl

/-- C3: for non-empty (after whitespace normalization) text, a char-color rule
match always outranks any text-color rule match; within each table the first
matching entry in declaration order determines the color; and when neither
table matches, the default line color is returned. -/
theorem charColorRules_priority (p : DXFPostProcessor) (text : String)
    (hne : normalizeWhitespace text ≠ "") :
    (∀ c, firstRuleMatch p.char_color_mapping (normalizeWhitespace text) = some c →
      tableHasMatch p.text_color_mapping (normalizeWhitespace text) →
      get_text_color_for_entity p text = (color_mapping (pyLower c)).getD p.line_color)
    ∧ (∀ pre cname rules post,
        p.char_color_mapping = pre ++ (cname, rules) :: post →
        (∀ e ∈ pre, ∀ r ∈ e.2, normalizeWhitespace r ≠ normalizeWhitespace text) →
        (∃ r ∈ rules, normalizeWhitespace r = normalizeWhitespace text) →
        get_text_color_for_entity p text = (color_mapping (pyLower cname)).getD p.line_color)
    ∧ (∀ pre cname rules post,
        firstRuleMatch p.char_color_mapping (normalizeWhitespace text) = none →
        p.text_color_mapping = pre ++ (cname, rules) :: post →
        (∀ e ∈ pre, ∀ r ∈ e.2, normalizeWhitespace r ≠ normalizeWhitespace text) →
        (∃ r ∈ rules, normalizeWhitespace r = normalizeWhitespace text) →
        get_text_color_for_entity p text = (color_mapping (pyLower cname)).getD p.line_color)
    ∧ (¬ tableHasMatch p.char_color_mapping (normalizeWhitespace text) →
       ¬ tableHasMatch p.text_color_mapping (normalizeWhitespace text) →
       get_text_color_for_entity p text = p.line_color) := by
  have htext : ¬ text = "" := text_ne_empty_of_normalized hne
  refine ⟨?_, ?_, ?_, ?_⟩
  · intro c hc _
    simp only [get_text_color_for_entity, if_neg htext, hc]
  · intro pre cname rules post heq hpre hmatch
    have hc : firstRuleMatch p.char_color_mapping (normalizeWhitespace text) = some cname := by
      rw [heq]
      exact firstRuleMatch_append pre cname rules post _ hpre hmatch
    simp only [get_text_color_for_entity, if_neg htext, hc]
  · intro pre cname rules post hnone heq hpre hmatch
    have hc : firstRuleMatch p.text_color_mapping (normalizeWhitespace text) = some cname := by
      rw [heq]
      exact firstRuleMatch_append pre cname rules post _ hpre hmatch
    simp only [get_text_color_for_entity, if_neg htext, hnone, hc]
  · intro h1 h2
    have hc1 : firstRuleMatch p.char_color_mapping (normalizeWhitespace text) = none :=
      (firstRuleMatch_eq_none_iff _ _).mpr h1
    have hc2 : firstRuleMatch p.text_color_mapping (normalizeWhitespace text) = none :=
      (firstRuleMatch_eq_none_iff _ _).mpr h2
    simp only [get_text_color_for_entity, if_neg htext, hc1, hc2]

/-- Witness for `charColorRules_priority`: the spec's concrete scenario.
With the char-color table mapping magenta to "(BL)" and the text-color table
mapping red to "(BL)", the text "(BL)" resolves to magenta (index 6). -/
theorem charColorRules_priority_witness :
    get_text_color_for_entity
      ⟨25/100, 7, [("red", ["(BL)"])], [("magenta", ["(BL)"])], 5/2⟩ "(BL)" = 6 := by
  have h := (charColorRules_priority
      ⟨25/100, 7, [("red", ["(BL)"])], [("magenta", ["(BL)"])], 5/2⟩ "(BL)"
      (by decide)).1 "magenta" (by decide)
      ⟨("red", ["(BL)"]), by simp, "(BL)", by simp, rfl⟩
  rw [h]
  decide

/-- C10: a rule entry whose color name is not one of the eight palette names
still resolves without error — the default line color index is returned as a
silent fallback — and palette lookup is case-insensitive (the matched color
name is lower-cased before lookup, and every case variant of the eight known
names maps to its palette index). -/
theorem unknown_color_name_fallback (p : DXFPostProcessor) (text : String) (c : String)
    (hne : normalizeWhitespace text ≠ "") :
    (firstRuleMatch p.char_color_mapping (normalizeWhitespace text) = some c →
      color_mapping (pyLower c) = none →
      get_text_color_for_entity p text = p.line_color)
    ∧ (firstRuleMatch p.char_color_mapping (normalizeWhitespace text) = none →
       firstRuleMatch p.text_color_mapping (normalizeWhitespace text) = some c →
       color_mapping (pyLower c) = none →
       get_text_color_for_entity p text = p.line_color)
    ∧ (firstRuleMatch p.char_color_mapping (normalizeWhitespace text) = some c →
       get_text_color_for_entity p text = (color_mapping (pyLower c)).getD p.line_color)
    ∧ (color_mapping ((pyLower "WHITE")) = some 7
       ∧ color_mapping ((pyLower "RED")) = some 1
       ∧ color_mapping ((pyLower "Yellow")) = some 2
       ∧ color_mapping ((pyLower "GREEN")) = some 3
       ∧ color_mapping ((pyLower "Cyan")) = some 4
       ∧ color_mapping ((pyLower "BLUE")) = some 5
       ∧ color_mapping ((pyLower "Magenta")) = some 6
       ∧ color_mapping ((pyLower "BLACK")) = some 0) := by
  have htext : ¬ text = "" := text_ne_empty_of_normalized hne
  refine ⟨?_, ?_, ?_, by decide⟩
  · intro hc hu
    simp only [get_text_color_for_entity, if_neg htext, hc, hu, Option.getD_none]
  · intro h1 h2 hu
    simp only [get_text_color_for_entity, if_neg htext, h1, h2, hu, Option.getD_none]
  · intro hc
    simp only [get_text_color_for_entity, if_neg htext, hc]

/-- Witness for `unknown_color_name_fallback`: a rule declared under the
unknown color name "orange" matches but falls back to the default index 7. -/
theorem unknown_color_name_fallback_witness :
    get_text_color_for_entity ⟨25/100, 7, [], [("orange", ["STAR"])], 5/2⟩ "STAR" = 7 := by
  have h := (unknown_color_name_fallback
      ⟨25/100, 7, [], [("orange", ["STAR"])], 5/2⟩ "STAR" "orange" (by decide)).1
      (by decide) (by decide)
  exact h

/-! ## Rich-text cleaner (`DXFPostProcessor._clean_mtext_content`) -/

/-- Suffix after the first ';' of `l`, if any.  The regex piece `[^;]*;` can
only consume up to and including the first semicolon. -/
def afterFirstSemi : List Char → Option (List Char)
  | [] => none
  | c :: cs => if c = ';' then some cs else afterFirstSemi cs

/-- Suffix after the last ';' of `l`, if any. -/
def afterLastSemi : List Char → Option (List Char)
  | [] => none
  | c :: cs =>
    match afterLastSemi cs with
    | some s => some s
    | none => if c = ';' then some cs else none

/-- One of the substitutions `re.sub(r"\\f[^;]*;", "", s)` (and likewise for
H and C): leftmost non-overlapping matches; a directive without a terminating
semicolon does not match and is left as-is.  `fuel` only bounds the recursion;
every step consumes at least one character, so `fuel = length + 1` processes
the entire list. -/
def stripDirectiveAux (letter : Char) : Nat → List Char → List Char
  | 0, l => l
  | _ + 1, [] => []
  | fuel + 1, c :: cs =>
    if c = '\\' then
      match cs with
      | c2 :: rest =>
        if c2 = letter then
          match afterFirstSemi rest with
          | some suffix => stripDirectiveAux letter fuel suffix
          | none => c :: stripDirectiveAux letter fuel cs
        else c :: stripDirectiveAux letter fuel cs
      | [] => [c]
    else c :: stripDirectiveAux letter fuel cs

def stripDirective (letter : Char) (l : List Char) : List Char :=
  stripDirectiveAux letter (l.length + 1) l

/-- The substitution `re.sub(r"\\[^\\]*;", "", s)`: after a backslash the
greedy `[^\\]*` runs to the next backslash (or the end of the string) and
backtracks to the last semicolon inside that run, so a match removes
everything from the backslash through that last semicolon; when the run holds
no semicolon there is no match at this position. -/
def stripGenericAux : Nat → List Char → List Char
  | 0, l => l
  | _ + 1, [] => []
  | fuel + 1, c :: cs =>
    if c = '\\' then
      match afterLastSemi (cs.takeWhile (fun x => x ≠ '\\')) with
      | some afterRun => stripGenericAux fuel (afterRun ++ cs.dropWhile (fun x => x ≠ '\\'))
      | none => c :: stripGenericAux fuel cs
    else c :: stripGenericAux fuel cs

def stripGeneric (l : List Char) : List Char :=
  stripGenericAux (l.length + 1) l

/-- Python `str.replace` for a two-character pattern `a b`: left-to-right,
non-overlapping, each occurrence replaced by `repl`. -/
def replacePair (a b : Char) (repl : List Char) : List Char → List Char
  | [] => []
  | [c] => [c]
  | c1 :: c2 :: rest =>
    if c1 = a ∧ c2 = b then repl ++ replacePair a b repl rest
    else c1 :: replacePair a b repl (c2 :: rest)

/-- The substitution `re.sub(r" +", " ", s)`: collapse runs of spaces (only
the space character) to a single space. -/
def collapseSpacesAux : Bool → List Char → List Char
  | _, [] => []
  | prev, c :: cs =>
    if c = ' ' then
      if prev then collapseSpacesAux true cs
      else ' ' :: collapseSpacesAux true cs
    else c :: collapseSpacesAux false cs

/-- `DXFPostProcessor._clean_mtext_content`: strip the `\f`, `\H`, `\C`
directives, then any other backslash directive terminated by a semicolon,
convert the non-breaking-space escape to a space, un-escape backslash and
brace escapes, collapse space runs and strip the ends. -/
def clean_mtext_content (text : String) : String :=
  if text = "" then text
  else
    let l0 := text.data
    let l1 := stripDirective 'f' l0
    let l2 := stripDirective 'H' l1
    let l3 := stripDirective 'C' l2
    let l4 := stripGeneric l3
    let l5 := replacePair '\\' '~' [' '] l4
    let l6 := replacePair '\\' '\\' ['\\'] l5
    let l7 := replacePair '\\' '\x7b' ['\x7b'] l6
    let l8 := replacePair '\\' '\x7d' ['\x7d'] l7
    let l9 := collapseSpacesAux false l8
    String.mk (stripList l9)

/-! ## Entity model and per-entity processing (`_process_entity` and friends) -/

/-- Python `int()` applied to a real value: truncation toward zero. -/
def pyInt (q : ℚ) : ℤ := if 0 ≤ q then Int.floor q else -(Int.floor (-q))

/-- The DXF attributes (`entity.dxf`) that the post-processor reads or
writes.  `none` models an absent attribute (a failing `hasattr` check). -/
structure DxfAttribs where
  color : Option ℤ
  true_color : Option ℤ
  color_name : Option String
  lineweight : Option ℤ
  text : Option String
  height : Option ℚ
  char_height : Option ℚ
  dimtxsty : Option String
  dimtxt : Option ℚ
  text_height : Option ℚ
deriving DecidableEq

/-- A DXF entity: its `dxftype()` tag plus its attribute namespace. -/
structure Entity where
  dxftype : String
  dxf : DxfAttribs
deriving DecidableEq

/-- `DXFPostProcessor._process_line_entity`: set the lineweight (0.01 mm
units, `int(line_width_mm * 100)`), force the color, clear the true-color and
color-book overrides. -/
def process_line_entity (p : DXFPostProcessor) (e : Entity) : Entity :=
  { e with dxf :=
    { e.dxf with
      lineweight := e.dxf.lineweight.map (fun _ => pyInt (p.line_width_mm * 100))
      color := e.dxf.color.map (fun _ => p.line_color)
      true_color := none
      color_name := none } }

/-- `DXFPostProcessor._process_text_entity`: extract the text (cleaning MTEXT
control codes), resolve its color through the rule tables, clear overrides,
and enforce the minimum font size on the applicable height attribute.
Entities other than TEXT and MTEXT get the empty text content. -/
def process_text_entity (p : DXFPostProcessor) (e : Entity) : Entity :=
  let entity_type := e.dxftype
  let text_content :=
    if entity_type = "TEXT" then e.dxf.text.getD ""
    else if entity_type = "MTEXT" then clean_mtext_content (e.dxf.text.getD "")
    else ""
  let text_color := get_text_color_for_entity p text_content
  let height :=
    if entity_type = "TEXT" ∨ entity_type = "ATTRIB" ∨ entity_type = "ATTDEF" then
      e.dxf.height.map (fun h => if h < p.min_font_size_mm then p.min_font_size_mm else h)
    else e.dxf.height
  let char_height :=
    if entity_type = "MTEXT" then
      e.dxf.char_height.map (fun h => if h < p.min_font_size_mm then p.min_font_size_mm else h)
    else e.dxf.char_height
  { e with dxf :=
    { e.dxf with
      color := e.dxf.color.map (fun _ => text_color)
      true_color := none
      color_name := none
      height := height
      char_height := char_height } }

/-- `DXFPostProcessor._process_dimension_entity`: force color and lineweight,
clear overrides; enforce the minimum font size on `dimtxt` only when
`dimtxsty` is also present, otherwise on `text_height` when present. -/
def process_dimension_entity (p : DXFPostProcessor) (e : Entity) : Entity :=
  let base :=
    { e.dxf with
      color := e.dxf.color.map (fun _ => p.line_color)
      true_color := (none : Option ℤ)
      color_name := (none : Option String)
      lineweight := e.dxf.lineweight.map (fun _ => pyInt (p.line_width_mm * 100)) }
  if e.dxf.dimtxsty.isSome ∧ e.dxf.dimtxt.isSome then
    { e with dxf :=
      { base with dimtxt :=
          e.dxf.dimtxt.map (fun h => if h < p.min_font_size_mm then p.min_font_size_mm else h) } }
  else if e.dxf.text_height.isSome then
    { e with dxf :=
      { base with text_height :=
          e.dxf.text_height.map (fun h => if h < p.min_font_size_mm then p.min_font_size_mm else h) } }
  else
    { e with dxf := base }

/-- `DXFPostProcessor._process_insert_entity`: force color, clear overrides,
set the lineweight. -/
def process_insert_entity (p : DXFPostProcessor) (e : Entity) : Entity :=
  { e with dxf :=
    { e.dxf with
      color := e.dxf.color.map (fun _ => p.line_color)
      true_color := none
      color_name := none
      lineweight := e.dxf.lineweight.map (fun _ => pyInt (p.line_width_mm * 100)) } }

/-- `DXFPostProcessor._process_hatch_entity`: force color and clear overrides.
The hatch handler touches no lineweight attribute. -/
def process_hatch_entity (p : DXFPostProcessor) (e : Entity) : Entity :=
  { e with dxf :=
    { e.dxf with
      color := e.dxf.color.map (fun _ => p.line_color)
      true_color := none
      color_name := none } }

/-- `DXFPostProcessor._process_general_entity`: force color, clear overrides,
set the lineweight when the attribute exists. -/
def process_general_entity (p : DXFPostProcessor) (e : Entity) : Entity :=
  { e with dxf :=
    { e.dxf with
      color := e.dxf.color.map (fun _ => p.line_color)
      true_color := none
      color_name := none
      lineweight := e.dxf.lineweight.map (fun _ => pyInt (p.line_width_mm * 100)) } }

def lineEntityTypes : List String :=
  ["LINE", "POLYLINE", "LWPOLYLINE", "CIRCLE", "ARC", "ELLIPSE", "SPLINE", "RAY",
   "XLINE", "POINT", "SOLID", "TRACE", "3DFACE", "HELIX", "REGION"]

def textEntityTypes : List String := ["TEXT", "MTEXT", "ATTRIB", "ATTDEF"]

def dimensionEntityTypes : List String := ["DIMENSION", "LEADER", "MULTILEADER"]

/-- Does character list `pre` begin character list `l`? -/
def beginsWith : List Char → List Char → Bool
  | [], _ => true
  | _ :: _, [] => false
  | a :: as, b :: bs => a = b && beginsWith as bs

/-- Python `str.startswith`. -/
def pyStartswith (s pre : String) : Bool := beginsWith pre.data s.data

/-- `DXFPostProcessor._process_entity`: dispatch on the entity type. -/
def process_entity (p : DXFPostProcessor) (e : Entity) : Entity :=
  if e.dxftype ∈ lineEntityTypes then process_line_entity p e
  else if e.dxftype ∈ textEntityTypes then process_text_entity p e
  else if pyStartswith e.dxftype "DIMENSION" = true ∨ e.dxftype ∈ dimensionEntityTypes then
    process_dimension_entity p e
  else if e.dxftype = "INSERT" then process_insert_entity p e
  else if e.dxftype = "HATCH" then process_hatch_entity p e
  else process_general_entity p e

/-- The dimension dispatch condition in `_process_entity`. -/
def isDimensionType (t : String) : Prop :=
  pyStartswith t "DIMENSION" = true ∨ t ∈ dimensionEntityTypes

instance (t : String) : Decidable (isDimensionType t) := by
  unfold isDimensionType
  infer_instance

/-- The catch-all branch of `_process_entity`. -/
def isOtherType (t : String) : Prop :=
  t ∉ lineEntityTypes ∧ t ∉ textEntityTypes ∧ ¬ isDimensionType t ∧
    t ≠ "INSERT" ∧ t ≠ "HATCH"

lemma text_not_line {t : String} (ht : t ∈ textEntityTypes) : t ∉ lineEntityTypes := by
  intro hl
  simp only [textEntityTypes, List.mem_cons, List.not_mem_nil, or_false] at ht
  rcases ht with rfl | rfl | rfl | rfl <;> exact absurd hl (by decide)

lemma dim_not_line {t : String} (hd : isDimensionType t) : t ∉ lineEntityTypes := by
  intro hl
  simp only [lineEntityTypes, List.mem_cons, List.not_mem_nil, or_false] at hl
  rcases hl with rfl | rfl | rfl | rfl | rfl | rfl | rfl | rfl | rfl | rfl | rfl | rfl |
    rfl | rfl | rfl <;> exact absurd hd (by decide)

lemma dim_not_text {t : String} (hd : isDimensionType t) : t ∉ textEntityTypes := by
  intro hl
  simp only [textEntityTypes, List.mem_cons, List.not_mem_nil, or_false] at hl
  rcases hl with rfl | rfl | rfl | rfl <;> exact absurd hd (by decide)

lemma process_entity_eq_line (p : DXFPostProcessor) (e : Entity)
    (ht : e.dxftype ∈ lineEntityTypes) :
    process_entity p e = process_line_entity p e := by
  unfold process_entity
  rw [if_pos ht]

lemma process_entity_eq_text (p : DXFPostProcessor) (e : Entity)
    (ht : e.dxftype ∈ textEntityTypes) :
    process_entity p e = process_text_entity p e := by
  unfold process_entity
  rw [if_neg (text_not_line ht), if_pos ht]

lemma process_entity_eq_dim (p : DXFPostProcessor) (e : Entity)
    (hd : isDimensionType e.dxftype) :
    process_entity p e = process_dimension_entity p e := by
  unfold process_entity
  rw [if_neg (dim_not_line hd), if_neg (dim_not_text hd),
    if_pos (show pyStartswith e.dxftype "DIMENSION" = true ∨
      e.dxftype ∈ dimensionEntityTypes from hd)]

lemma process_entity_eq_insert (p : DXFPostProcessor) (e : Entity)
    (ht : e.dxftype = "INSERT") :
    process_entity p e = process_insert_entity p e := by
  obtain ⟨t, d⟩ := e
  subst ht
  rfl

lemma process_entity_eq_hatch (p : DXFPostProcessor) (e : Entity)
    (ht : e.dxftype = "HATCH") :
    process_entity p e = process_hatch_entity p e := by
  obtain ⟨t, d⟩ := e
  subst ht
  rfl

lemma process_entity_eq_general (p : DXFPostProcessor) (e : Entity)
    (ht : isOtherType e.dxftype) :
    process_entity p e = process_general_entity p e := by
  obtain ⟨h1, h2, h3, h4, h5⟩ := ht
  unfold process_entity
  rw [if_neg h1, if_neg h2,
    if_neg (show ¬ (pyStartswith e.dxftype "DIMENSION" = true ∨
      e.dxftype ∈ dimensionEntityTypes) from h3), if_neg h4, if_neg h5]

/-- C4 (amended): raise-only minimum font size enforcement.  For TEXT, ATTRIB
and ATTDEF entities the `height` attribute, and for MTEXT the `char_height`
attribute, is raised to exactly `min_font_size_mm` when below it and left
unchanged otherwise.  For dimension-like entities `dimtxt` is enforced only
when `dimtxsty` is also present; when it is not, `text_height` (when present)
is enforced instead and `dimtxt` is left unchanged. -/
theorem min_font_size_raise_only (p : DXFPostProcessor) (e : Entity) :
    ((e.dxftype = "TEXT" ∨ e.dxftype = "ATTRIB" ∨ e.dxftype = "ATTDEF") →
      ∀ h, e.dxf.height = some h →
      (process_entity p e).dxf.height =
        some (if h < p.min_font_size_mm then p.min_font_size_mm else h))
    ∧ (e.dxftype = "MTEXT" → ∀ h, e.dxf.char_height = some h →
      (process_entity p e).dxf.char_height =
        some (if h < p.min_font_size_mm then p.min_font_size_mm else h))
    ∧ (isDimensionType e.dxftype →
      e.dxf.dimtxsty.isSome = true → ∀ h, e.dxf.dimtxt = some h →
      (process_entity p e).dxf.dimtxt =
        some (if h < p.min_font_size_mm then p.min_font_size_mm else h))
    ∧ (isDimensionType e.dxftype →
      ¬ (e.dxf.dimtxsty.isSome = true ∧ e.dxf.dimtxt.isSome = true) →
      ∀ h, e.dxf.text_height = some h →
      (process_entity p e).dxf.text_height =
        some (if h < p.min_font_size_mm then p.min_font_size_mm else h))
    ∧ (isDimensionType e.dxftype → e.dxf.dimtxsty = none →
      (process_entity p e).dxf.dimtxt = e.dxf.dimtxt) := by
  refine ⟨?_, ?_, ?_, ?_, ?_⟩
  · intro ht h hh
    have he : process_entity p e = process_text_entity p e := by
      apply process_entity_eq_text
      rcases ht with h1 | h1 | h1 <;> rw [h1] <;> decide
    rw [he]
    obtain ⟨t, d⟩ := e
    rcases ht with rfl | rfl | rfl <;>
      (simp [process_text_entity]; exact ⟨h, hh, rfl⟩)
  · intro ht h hh
    have he : process_entity p e = process_text_entity p e := by
      apply process_entity_eq_text
      rw [ht]; decide
    rw [he]
    obtain ⟨t, d⟩ := e
    subst ht
    simp [process_text_entity]
    exact ⟨h, hh, rfl⟩
  · intro hd hsty h hh
    rw [process_entity_eq_dim p e hd]
    have hcond : e.dxf.dimtxsty.isSome = true ∧ e.dxf.dimtxt.isSome = true := by
      constructor
      · exact hsty
      · rw [hh]; rfl
    simp [process_dimension_entity, hcond, hh]
  · intro hd hcond h hh
    rw [process_entity_eq_dim p e hd]
    have hth : e.dxf.text_height.isSome = true := by rw [hh]; rfl
    simp [process_dimension_entity, hcond, hth, hh]
  · intro hd hsty
    rw [process_entity_eq_dim p e hd]
    have hcond : ¬ (e.dxf.dimtxsty.isSome = true ∧ e.dxf.dimtxt.isSome = true) := by
      rw [hsty]; simp
    by_cases hth : e.dxf.text_height.isSome = true <;>
      simp [process_dimension_entity, hcond, hth]

instance (t : String) : Decidable (isOtherType t) := by
  unfold isOtherType
  infer_instance

/-- Witness for `min_font_size_raise_only`: with a 2.5 mm minimum, a TEXT
entity of height 1 mm is raised to exactly 2.5 mm and one of height 5 mm is
left unchanged. -/
theorem min_font_size_raise_only_witness :
    (process_entity ⟨25/100, 7, [], [], 5/2⟩
        ⟨"TEXT", ⟨none, none, none, none, none, some 1, none, none, none, none⟩⟩).dxf.height
      = some (5/2)
    ∧ (process_entity ⟨25/100, 7, [], [], 5/2⟩
        ⟨"TEXT", ⟨none, none, none, none, none, some 5, none, none, none, none⟩⟩).dxf.height
      = some 5 := by
  constructor
  · have h := (min_font_size_raise_only ⟨25/100, 7, [], [], 5/2⟩
      ⟨"TEXT", ⟨none, none, none, none, none, some 1, none, none, none, none⟩⟩).1
      (Or.inl rfl) 1 rfl
    rw [h, if_pos (by norm_num : (1:ℚ) < 5/2)]
  · have h := (min_font_size_raise_only ⟨25/100, 7, [], [], 5/2⟩
      ⟨"TEXT", ⟨none, none, none, none, none, some 5, none, none, none, none⟩⟩).1
      (Or.inl rfl) 5 rfl
    rw [h, if_neg (by norm_num : ¬ (5:ℚ) < 5/2)]

/-- Counterexample to C4 as stated: a DIMENSION entity carrying the
dimension-text-height attribute `dimtxt = 1` (below the 2.5 mm minimum) but
no `dimtxsty` attribute keeps `dimtxt = 1`; the attribute is not raised. -/
theorem dimtxt_not_raised_without_dimtxsty :
    (process_entity ⟨25/100, 7, [], [], 5/2⟩
        ⟨"DIMENSION", ⟨none, none, none, none, none, none, none, none, some 1, none⟩⟩).dxf.dimtxt
      = some 1
    ∧ (1 : ℚ) < 5/2
    ∧ some (1 : ℚ) ≠ some ((5:ℚ)/2) := by
  refine ⟨?_, by norm_num, by norm_num⟩
  rw [process_entity_eq_dim _ _ (by decide)]
  simp [process_dimension_entity]

/-- C6 (amended): for every line-like entity, annotation sets the lineweight
(when present) to `int(line_width_mm * 100)` — truncation toward zero, not
rounding to nearest — and the color (when present) to the line color index. -/
theorem line_entity_coloring (p : DXFPostProcessor) (e : Entity)
    (ht : e.dxftype ∈ lineEntityTypes) :
    (∀ w, e.dxf.lineweight = some w →
      (process_entity p e).dxf.lineweight = some (pyInt (p.line_width_mm * 100)))
    ∧ (∀ c, e.dxf.color = some c →
      (process_entity p e).dxf.color = some p.line_color) := by
  rw [process_entity_eq_line p e ht]
  constructor
  · intro w hw
    simp [process_line_entity, hw]
  · intro c hc
    simp [process_line_entity, hc]

/-- Counterexample to C6 as stated: with `line_width_mm = 0.159` the code
stores `int(15.9) = 15`, while rounding to the nearest integer gives 16. -/
theorem line_lineweight_truncated_not_rounded :
    (process_entity ⟨159/1000, 7, [], [], 5/2⟩
        ⟨"LINE", ⟨some 1, none, none, some 0, none, none, none, none, none, none⟩⟩).dxf.lineweight
      = some 15
    ∧ round (((159:ℚ)/1000) * 100) = 16
    ∧ some (15 : ℤ) ≠ some (round (((159:ℚ)/1000) * 100)) := by
  refine ⟨?_, ?_, ?_⟩
  · rw [process_entity_eq_line _ _ (by decide)]
    simp only [process_line_entity, Option.map_some']
    norm_num [pyInt]
  · norm_num [round_eq]
  · have : round (((159:ℚ)/1000) * 100) = 16 := by norm_num [round_eq]
    rw [this]
    decide

/-- Witness for `line_entity_coloring`: a LINE with the default 0.25 mm
width gets lineweight 25 (0.01 mm units) and the default color 7. -/
theorem line_entity_coloring_witness :
    (process_entity ⟨25/100, 7, [], [], 5/2⟩
        ⟨"LINE", ⟨some 3, none, none, some 0, none, none, none, none, none, none⟩⟩).dxf.lineweight
      = some 25
    ∧ (process_entity ⟨25/100, 7, [], [], 5/2⟩
        ⟨"LINE", ⟨some 3, none, none, some 0, none, none, none, none, none, none⟩⟩).dxf.color
      = some 7 := by
  have h := line_entity_coloring ⟨25/100, 7, [], [], 5/2⟩
    ⟨"LINE", ⟨some 3, none, none, some 0, none, none, none, none, none, none⟩⟩ (by decide)
  constructor
  · rw [h.1 0 rfl]
    norm_num [pyInt]
  · exact h.2 3 rfl

/-- C7 (amended): INSERT and catch-all Other entities get their color forced
to the line color and their lineweight (when present) set as for line-like
entities; HATCH entities get only the color forced — the hatch handler leaves
the lineweight attribute untouched. -/
theorem insert_hatch_general_coloring (p : DXFPostProcessor) (e : Entity) :
    (e.dxftype = "INSERT" → ∀ c, e.dxf.color = some c →
      (process_entity p e).dxf.color = some p.line_color)
    ∧ (e.dxftype = "INSERT" → ∀ w, e.dxf.lineweight = some w →
      (process_entity p e).dxf.lineweight = some (pyInt (p.line_width_mm * 100)))
    ∧ (e.dxftype = "HATCH" → ∀ c, e.dxf.color = some c →
      (process_entity p e).dxf.color = some p.line_color)
    ∧ (e.dxftype = "HATCH" →
      (process_entity p e).dxf.lineweight = e.dxf.lineweight)
    ∧ (isOtherType e.dxftype → ∀ c, e.dxf.color = some c →
      (process_entity p e).dxf.color = some p.line_color)
    ∧ (isOtherType e.dxftype → ∀ w, e.dxf.lineweight = some w →
      (process_entity p e).dxf.lineweight = some (pyInt (p.line_width_mm * 100))) := by
  refine ⟨?_, ?_, ?_, ?_, ?_, ?_⟩
  · intro ht c hc
    rw [process_entity_eq_insert p e ht]
    simp [process_insert_entity, hc]
  · intro ht w hw
    rw [process_entity_eq_insert p e ht]
    simp [process_insert_entity, hw]
  · intro ht c hc
    rw [process_entity_eq_hatch p e ht]
    simp [process_hatch_entity, hc]
  · intro ht
    rw [process_entity_eq_hatch p e ht]
    rfl
  · intro ht c hc
    rw [process_entity_eq_general p e ht]
    simp [process_general_entity, hc]
  · intro ht w hw
    rw [process_entity_eq_general p e ht]
    simp [process_general_entity, hw]

/-- Counterexample to C7 as stated: a HATCH entity whose lineweight is 999
keeps it at 999 after annotation, instead of receiving
`int(line_width_mm * 100) = 25`. -/
theorem hatch_lineweight_unchanged :
    (process_entity ⟨25/100, 7, [], [], 5/2⟩
        ⟨"HATCH", ⟨some 2, none, none, some 999, none, none, none, none, none, none⟩⟩).dxf.lineweight
      = some 999
    ∧ some (999 : ℤ) ≠ some (pyInt (((25:ℚ)/100) * 100)) := by
  constructor
  · rw [process_entity_eq_hatch _ _ rfl]
    rfl
  · norm_num [pyInt]

/-- Witness for `insert_hatch_general_coloring`: an INSERT is recolored to
7, a HATCH keeps its lineweight 5, and a VIEWPORT (catch-all) gets
lineweight 25. -/
theorem insert_hatch_general_coloring_witness :
    (process_entity ⟨25/100, 7, [], [], 5/2⟩
        ⟨"INSERT", ⟨some 1, none, none, some 0, none, none, none, none, none, none⟩⟩).dxf.color
      = some 7
    ∧ (process_entity ⟨25/100, 7, [], [], 5/2⟩
        ⟨"HATCH", ⟨some 1, none, none, some 5, none, none, none, none, none, none⟩⟩).dxf.lineweight
      = some 5
    ∧ (process_entity ⟨25/100, 7, [], [], 5/2⟩
        ⟨"VIEWPORT", ⟨some 1, none, none, some 0, none, none, none, none, none, none⟩⟩).dxf.lineweight
      = some 25 := by
  refine ⟨?_, ?_, ?_⟩
  · exact (insert_hatch_general_coloring ⟨25/100, 7, [], [], 5/2⟩
      ⟨"INSERT", ⟨some 1, none, none, some 0, none, none, none, none, none, none⟩⟩).1
      rfl 1 rfl
  · exact (insert_hatch_general_coloring ⟨25/100, 7, [], [], 5/2⟩
      ⟨"HATCH", ⟨some 1, none, none, some 5, none, none, none, none, none, none⟩⟩).2.2.2.1 rfl
  · have h := (insert_hatch_general_coloring ⟨25/100, 7, [], [], 5/2⟩
      ⟨"VIEWPORT", ⟨some 1, none, none, some 0, none, none, none, none, none, none⟩⟩).2.2.2.2.2
      (by decide) 0 rfl
    rw [h]
    norm_num [pyInt]

/-- C9 (amended): TEXT entities have their raw text resolved through the rule
tables and MTEXT entities their cleaned text; ATTRIB and ATTDEF entities are
always given the empty text content, so their color is always the default
line color regardless of any rule matching their actual text. -/
theorem text_entity_color_resolution (p : DXFPostProcessor) (e : Entity) :
    (e.dxftype = "TEXT" → ∀ c, e.dxf.color = some c →
      (process_entity p e).dxf.color =
        some (get_text_color_for_entity p (e.dxf.text.getD "")))
    ∧ (e.dxftype = "MTEXT" → ∀ c, e.dxf.color = some c →
      (process_entity p e).dxf.color =
        some (get_text_color_for_entity p (clean_mtext_content (e.dxf.text.getD ""))))
    ∧ ((e.dxftype = "ATTRIB" ∨ e.dxftype = "ATTDEF") → ∀ c, e.dxf.color = some c →
      (process_entity p e).dxf.color = some p.line_color) := by
  refine ⟨?_, ?_, ?_⟩
  · intro ht c hc
    rw [process_entity_eq_text p e (by rw [ht]; decide)]
    obtain ⟨t, d⟩ := e
    simp only at ht
    subst ht
    simp [process_text_entity, hc]
    exact ⟨c, hc⟩
  · intro ht c hc
    rw [process_entity_eq_text p e (by rw [ht]; decide)]
    obtain ⟨t, d⟩ := e
    simp only at ht
    subst ht
    simp [process_text_entity, hc]
    exact ⟨c, hc⟩
  · intro ht c hc
    rw [process_entity_eq_text p e (by rcases ht with h | h <;> rw [h] <;> decide)]
    obtain ⟨t, d⟩ := e
    simp only at ht
    rcases ht with rfl | rfl <;>
      (simp [process_text_entity, hc, get_text_color_for_entity]; exact ⟨c, hc⟩)

/-- Counterexample to C9 as stated: an ATTRIB whose text "(BL)" exactly
matches a char-color rule for magenta is still colored with the default line
color 7, not the rule color 6. -/
theorem attrib_matching_rule_gets_default_color :
    (process_entity ⟨25/100, 7, [], [("magenta", ["(BL)"])], 5/2⟩
        ⟨"ATTRIB", ⟨some 2, none, none, none, some "(BL)", none, none, none, none, none⟩⟩).dxf.color
      = some 7
    ∧ get_text_color_for_entity ⟨25/100, 7, [], [("magenta", ["(BL)"])], 5/2⟩ "(BL)" = 6
    ∧ (7 : ℤ) ≠ 6 := by
  refine ⟨?_, by decide, by decide⟩
  rw [process_entity_eq_text _ _ (by decide)]
  simp [process_text_entity, get_text_color_for_entity]

/-- Witness for `text_entity_color_resolution`: a TEXT entity whose text
matches a red char-color rule is colored 1; an ATTRIB with the same matching
text is colored with the default 7. -/
theorem text_entity_color_resolution_witness :
    (process_entity ⟨25/100, 7, [], [("red", ["(RD)"])], 5/2⟩
        ⟨"TEXT", ⟨some 2, none, none, none, some "(RD)", none, none, none, none, none⟩⟩).dxf.color
      = some 1
    ∧ (process_entity ⟨25/100, 7, [], [("red", ["(RD)"])], 5/2⟩
        ⟨"ATTRIB", ⟨some 2, none, none, none, some "(RD)", none, none, none, none, none⟩⟩).dxf.color
      = some 7 := by
  constructor
  · have h := (text_entity_color_resolution ⟨25/100, 7, [], [("red", ["(RD)"])], 5/2⟩
      ⟨"TEXT", ⟨some 2, none, none, none, some "(RD)", none, none, none, none, none⟩⟩).1
      rfl 2 rfl
    rw [h]
    decide
  · exact (text_entity_color_resolution ⟨25/100, 7, [], [("red", ["(RD)"])], 5/2⟩
      ⟨"ATTRIB", ⟨some 2, none, none, none, some "(RD)", none, none, none, none, none⟩⟩).2.2
      (Or.inl rfl) 2 rfl

/-- C8: evaluation of the rich-text cleaner.  On the input "A\PB;" the
catch-all directive regex `\\[^\\]*;` consumes the paragraph-break marker
`\P` together with the text up to the semicolon, so the output is "A" and the
marker is NOT preserved, although the code's own comment states that `\P` is
kept.  When no semicolon follows, the marker survives, and ordinary font
directives are stripped around it. -/
theorem clean_mtext_paragraph_marker_lost :
    clean_mtext_content "A\\PB;" = "A"
    ∧ clean_mtext_content "A\\PB" = "A\\PB"
    ∧ clean_mtext_content "\\fArial;X\\PY" = "X\\PY" := by
  refine ⟨by decide, by decide, by decide⟩

/-! ## Label diff classifier (`diff_label_processor.process_csv_file`) -/

/-- Numeric value of an all-digit character list. -/
def digitsVal (l : List Char) : ℕ :=
  l.foldl (fun acc c => 10 * acc + (c.toNat - 48)) 0

/-- Python `int(s)` on a stripped string: an optional sign followed by one or
more ASCII digits; anything else raises `ValueError`, modelled as `none`. -/
def pyParseInt (s : String) : Option ℤ :=
  match s.data with
  | [] => none
  | '-' :: rest =>
    if rest ≠ [] ∧ rest.all Char.isDigit then some (-(digitsVal rest : ℤ)) else none
  | '+' :: rest =>
    if rest ≠ [] ∧ rest.all Char.isDigit then some ((digitsVal rest : ℤ)) else none
  | l =>
    if l.all Char.isDigit then some ((digitsVal l : ℤ)) else none

/-- Field access `row[i]` of a CSV row (guarded by the length check). -/
def field (row : List String) (i : Nat) : String := row.getD i ""

/-- `process_csv_file` on in-memory data rows (the header is already gone):
a row with fewer than 5 fields is skipped with a warning; a fifth field that
does not parse as an integer aborts the whole file (`none`, the
`sys.exit(1)` path); otherwise the row's label joins the list selected by
its comparison result, and rows with any other comparison result are
dropped. -/
def process_csv_rows :
    List (List String) → Option (List String × List String × List String × List String)
  | [] => some ([], [], [], [])
  | row :: rest =>
    if row.length < 5 then process_csv_rows rest
    else
      let label := pyStrip (field row 0)
      let comparison_result := pyStrip (field row 3)
      match pyParseInt (pyStrip (field row 4)) with
      | none => none
      | some difference_count =>
        match process_csv_rows rest with
        | none => none
        | some (deleted_labels, added_labels, modified_a_labels, modified_b_labels) =>
          if comparison_result = "A Only" then
            some (label :: deleted_labels, added_labels, modified_a_labels, modified_b_labels)
          else if comparison_result = "B Only" then
            some (deleted_labels, label :: added_labels, modified_a_labels, modified_b_labels)
          else if comparison_result = "Different" then
            if difference_count < 0 then
              some (deleted_labels, added_labels, label :: modified_a_labels, modified_b_labels)
            else
              some (deleted_labels, added_labels, modified_a_labels, label :: modified_b_labels)
          else
            some (deleted_labels, added_labels, modified_a_labels, modified_b_labels)

/-- C1: on a comparison table whose rows are all valid (at least 5 fields)
and carry one of the three documented outcomes, classification partitions the
rows.  Each output list is exactly the order-preserving selection of the
labels with the matching outcome (so duplicates are preserved and relative
order equals input order), and the four lists together form the multiset of
all row labels, so no label instance lands in two lists. -/
theorem classify_partition (rows : List (List String)) (d a ma mb : List String)
    (hlen : ∀ r ∈ rows, 5 ≤ r.length)
    (hp : process_csv_rows rows = some (d, a, ma, mb))
    (hout : ∀ r ∈ rows, pyStrip (field r 3) = "A Only" ∨
      pyStrip (field r 3) = "B Only" ∨ pyStrip (field r 3) = "Different") :
    d = rows.filterMap (fun r =>
        if pyStrip (field r 3) = "A Only" then some (pyStrip (field r 0)) else none)
    ∧ a = rows.filterMap (fun r =>
        if pyStrip (field r 3) = "B Only" then some (pyStrip (field r 0)) else none)
    ∧ ma = rows.filterMap (fun r =>
        match pyParseInt (pyStrip (field r 4)) with
        | some n =>
          if pyStrip (field r 3) = "Different" ∧ n < 0 then
            some (pyStrip (field r 0)) else none
        | none => none)
    ∧ mb = rows.filterMap (fun r =>
        match pyParseInt (pyStrip (field r 4)) with
        | some n =>
          if pyStrip (field r 3) = "Different" ∧ 0 ≤ n then
            some (pyStrip (field r 0)) else none
        | none => none)
    ∧ (d : Multiset String) + (a : Multiset String) + (ma : Multiset String)
        + (mb : Multiset String)
      = ((rows.map (fun r => pyStrip (field r 0))) : Multiset String) := by
  induction rows generalizing d a ma mb with
  | nil =>
    simp only [process_csv_rows, Option.some.injEq, Prod.mk.injEq] at hp
    obtain ⟨rfl, rfl, rfl, rfl⟩ := hp
    simp
  | cons row rest ih =>
    have h5 : ¬ row.length < 5 := by
      have := hlen row (by simp)
      omega
    simp only [process_csv_rows, if_neg h5] at hp
    cases hpi : pyParseInt (pyStrip (field row 4)) with
    | none =>
      rw [hpi] at hp
      simp at hp
    | some n =>
      rw [hpi] at hp
      cases hrec : process_csv_rows rest with
      | none =>
        rw [hrec] at hp
        simp at hp
      | some q =>
        obtain ⟨d1, a1, ma1, mb1⟩ := q
        rw [hrec] at hp
        dsimp only at hp
        obtain ⟨ihd, iha, ihma, ihmb, ihm⟩ :=
          ih d1 a1 ma1 mb1 (fun r hr => hlen r (by simp [hr])) hrec
            (fun r hr => hout r (by simp [hr]))
        rcases hout row (by simp) with ho | ho | ho
        · rw [if_pos ho] at hp
          simp only [Option.some.injEq, Prod.mk.injEq] at hp
          obtain ⟨rfl, rfl, rfl, rfl⟩ := hp
          refine ⟨?_, ?_, ?_, ?_, ?_⟩
          · simp [List.filterMap_cons, ho, ihd]
          · simp [List.filterMap_cons, ho, iha]
          · simp [List.filterMap_cons, hpi, ho, ihma]
          · simp [List.filterMap_cons, hpi, ho, ihmb]
          · simp only [List.map_cons]
            rw [show ((pyStrip (field row 0) :: d1 : List String) : Multiset String)
                = pyStrip (field row 0) ::ₘ (d1 : Multiset String) from rfl,
              show ((pyStrip (field row 0) :: rest.map (fun r => pyStrip (field r 0))
                  : List String) : Multiset String)
                = pyStrip (field row 0)
                  ::ₘ ((rest.map (fun r => pyStrip (field r 0))) : Multiset String) from rfl,
              Multiset.cons_add, Multiset.cons_add, Multiset.cons_add, ihm]
        · have hne : ¬ pyStrip (field row 3) = "A Only" := by
            rw [ho]; decide
          rw [if_neg hne, if_pos ho] at hp
          simp only [Option.some.injEq, Prod.mk.injEq] at hp
          obtain ⟨rfl, rfl, rfl, rfl⟩ := hp
          refine ⟨?_, ?_, ?_, ?_, ?_⟩
          · simp [List.filterMap_cons, ho, ihd]
          · simp [List.filterMap_cons, ho, iha]
          · simp [List.filterMap_cons, hpi, ho, ihma]
          · simp [List.filterMap_cons, hpi, ho, ihmb]
          · simp only [List.map_cons]
            rw [show ((pyStrip (field row 0) :: a1 : List String) : Multiset String)
                = pyStrip (field row 0) ::ₘ (a1 : Multiset String) from rfl,
              show ((pyStrip (field row 0) :: rest.map (fun r => pyStrip (field r 0))
                  : List String) : Multiset String)
                = pyStrip (field row 0)
                  ::ₘ ((rest.map (fun r => pyStrip (field r 0))) : Multiset String) from rfl,
              Multiset.add_cons, Multiset.cons_add, Multiset.cons_add, ihm]
        · have hne1 : ¬ pyStrip (field row 3) = "A Only" := by
            rw [ho]; decide
          have hne2 : ¬ pyStrip (field row 3) = "B Only" := by
            rw [ho]; decide
          rw [if_neg hne1, if_neg hne2, if_pos ho] at hp
          by_cases hn : n < 0
          · rw [if_pos hn] at hp
            simp only [Option.some.injEq, Prod.mk.injEq] at hp
            obtain ⟨rfl, rfl, rfl, rfl⟩ := hp
            refine ⟨?_, ?_, ?_, ?_, ?_⟩
            · simp [List.filterMap_cons, ho, ihd]
            · simp [List.filterMap_cons, ho, iha]
            · simp [List.filterMap_cons, hpi, ho, hn, ihma]
            · have : ¬ (0 ≤ n) := by omega
              simp [List.filterMap_cons, hpi, ho, this, ihmb]
            · simp only [List.map_cons]
              rw [show ((pyStrip (field row 0) :: ma1 : List String) : Multiset String)
                  = pyStrip (field row 0) ::ₘ (ma1 : Multiset String) from rfl,
                show ((pyStrip (field row 0) :: rest.map (fun r => pyStrip (field r 0))
                    : List String) : Multiset String)
                  = pyStrip (field row 0)
                    ::ₘ ((rest.map (fun r => pyStrip (field r 0))) : Multiset String) from rfl,
                Multiset.add_cons, Multiset.cons_add, ihm]
          · rw [if_neg hn] at hp
            simp only [Option.some.injEq, Prod.mk.injEq] at hp
            obtain ⟨rfl, rfl, rfl, rfl⟩ := hp
            have hn0 : 0 ≤ n := by omega
            refine ⟨?_, ?_, ?_, ?_, ?_⟩
            · simp [List.filterMap_cons, ho, ihd]
            · simp [List.filterMap_cons, ho, iha]
            · simp [List.filterMap_cons, hpi, ho, hn, ihma]
            · simp [List.filterMap_cons, hpi, ho, hn0, ihmb]
            · simp only [List.map_cons]
              rw [show ((pyStrip (field row 0) :: mb1 : List String) : Multiset String)
                  = pyStrip (field row 0) ::ₘ (mb1 : Multiset String) from rfl,
                show ((pyStrip (field row 0) :: rest.map (fun r => pyStrip (field r 0))
                    : List String) : Multiset String)
                  = pyStrip (field row 0)
                    ::ₘ ((rest.map (fun r => pyStrip (field r 0))) : Multiset String) from rfl,
                Multiset.add_cons, ihm]

/-- Witness for `classify_partition`: the spec's concrete scenario
`[("R1",1,0,"A Only",-1)]` classifies as `deleted = ["R1"]`, others empty. -/
theorem classify_partition_witness :
    ["R1"] = List.filterMap (fun r =>
        if pyStrip (field r 3) = "A Only" then some (pyStrip (field r 0)) else none)
      [["R1", "1", "0", "A Only", "-1"]]
    ∧ process_csv_rows [["R1", "1", "0", "A Only", "-1"]] = some (["R1"], [], [], []) := by
  constructor
  · exact (classify_partition [["R1", "1", "0", "A Only", "-1"]] ["R1"] [] [] []
      (by decide) (by decide) (by decide)).1
  · decide

/-- C5: classification fails (for the whole file) exactly when some row with
at least 5 fields has a fifth field that does not parse as an integer, and a
row with fewer than 5 fields is skipped without affecting the result. -/
theorem classify_failure_iff (rows : List (List String)) :
    (process_csv_rows rows = none ↔
      ∃ r ∈ rows, 5 ≤ r.length ∧ pyParseInt (pyStrip (field r 4)) = none)
    ∧ (∀ row rest, row.length < 5 →
      process_csv_rows (row :: rest) = process_csv_rows rest) := by
  constructor
  · induction rows with
    | nil => simp [process_csv_rows]
    | cons row rest ih =>
      by_cases h5 : row.length < 5
      · rw [show process_csv_rows (row :: rest) = process_csv_rows rest by
            simp [process_csv_rows, h5]]
        rw [ih]
        constructor
        · rintro ⟨r, hr, hl, hp⟩
          exact ⟨r, List.mem_cons_of_mem _ hr, hl, hp⟩
        · rintro ⟨r, hr, hl, hp⟩
          rcases List.mem_cons.mp hr with rfl | hr
          · omega
          · exact ⟨r, hr, hl, hp⟩
      · simp only [process_csv_rows, if_neg h5]
        cases hpi : pyParseInt (pyStrip (field row 4)) with
        | none =>
          constructor
          · intro _
            exact ⟨row, by simp, by omega, hpi⟩
          · intro _
            rfl
        | some n =>
          cases hrec : process_csv_rows rest with
          | none =>
            constructor
            · intro _
              obtain ⟨r, hr, hl, hp⟩ := ih.mp hrec
              exact ⟨r, List.mem_cons_of_mem _ hr, hl, hp⟩
            · intro _
              rfl
          | some q =>
            obtain ⟨d1, a1, ma1, mb1⟩ := q
            dsimp only
            constructor
            · intro h
              exfalso
              split_ifs at h
            · rintro ⟨r, hr, hl, hp⟩
              exfalso
              rcases List.mem_cons.mp hr with rfl | hr
              · rw [hpi] at hp
                exact absurd hp (by simp)
              · have hn : process_csv_rows rest = none := ih.mpr ⟨r, hr, hl, hp⟩
                rw [hrec] at hn
                exact absurd hn (by simp)
  · intro row rest h
    simp [process_csv_rows, h]

/-- Witness for `classify_failure_iff`: a file with a short row and a row
whose delta field is "x5" fails; with a parseable delta field the short row
is simply skipped. -/
theorem classify_failure_iff_witness :
    process_csv_rows [["short"], ["R1", "1", "0", "A Only", "x5"]] = none
    ∧ process_csv_rows (["short"] :: [["R1", "1", "0", "A Only", "7"]])
      = process_csv_rows [["R1", "1", "0", "A Only", "7"]] := by
  constructor
  · exact (classify_failure_iff [["short"], ["R1", "1", "0", "A Only", "x5"]]).1.mpr
      ⟨["R1", "1", "0", "A Only", "x5"], by decide, by decide, by decide⟩
  · exact (classify_failure_iff [["short"]]).2
      ["short"] [["R1", "1", "0", "A Only", "7"]] (by decide)

/-! ## Pair pipeline orchestrator (`core/processor.py`, `process_file_pairs`) -/

/-- `core.models.ProcessingResult`, restricted to the fields the orchestrator
writes in `process_file_pairs`. -/
structure ProcessingResult where
  pair_name : String
  success : Bool
  file_a_output : Option String
  file_b_output : Option String
  error_message : Option String
deriving DecidableEq

/-- The effectful collaborators invoked by `process_file_pairs`, abstracted by
their outcomes: `_compare_labels` (step 1), `_convert_excel_to_csv` (step 2,
producing the per-pair sheet names), and per pair `_run_diff_processor`
(step 3) and `_run_dxf_processor` (step 4, both files).  `Except.error`
models a raised exception carrying its message. -/
structure OrchestratorStages where
  compare_labels : Except String String
  convert_excel_to_csv : String → Except String (List String)
  run_diff_processor : String → Except String String
  run_dxf_processor : String → String → Except String (String × String)

/-- The body of the per-pair loop of `process_file_pairs`: steps 3 and 4 run
inside the pair-level try/except; any failure is recorded as a
`success := false` result with the exception's message, a double success
records the two output paths. -/
def run_pair (st : OrchestratorStages) (pair_name : String) : ProcessingResult :=
  match st.run_diff_processor pair_name with
  | Except.error e =>
    { pair_name := pair_name, success := false,
      file_a_output := none, file_b_output := none, error_message := some e }
  | Except.ok output_dir =>
    match st.run_dxf_processor pair_name output_dir with
    | Except.error e =>
      { pair_name := pair_name, success := false,
        file_a_output := none, file_b_output := none, error_message := some e }
    | Except.ok (fa, fb) =>
      { pair_name := pair_name, success := true,
        file_a_output := some fa, file_b_output := some fb, error_message := none }

/-- `DXFProcessor.process_file_pairs`: steps 1 and 2 run before any per-pair
work and abort the whole run when they raise; afterwards the loop over the
pair names accumulates one `ProcessingResult` per pair, catching each pair's
exceptions at the pair boundary and continuing. -/
def process_file_pairs (st : OrchestratorStages) :
    Except String (List (String × ProcessingResult)) :=
  match st.compare_labels with
  | Except.error e => Except.error e
  | Except.ok excel_data =>
    match st.convert_excel_to_csv excel_data with
    | Except.error e => Except.error e
    | Except.ok pair_names =>
      Except.ok (pair_names.foldl (fun results n => results ++ [(n, run_pair st n)]) [])

lemma foldl_append_eq_map (f : String → ProcessingResult) (l : List String)
    (acc : List (String × ProcessingResult)) :
    l.foldl (fun results n => results ++ [(n, f n)]) acc
      = acc ++ l.map (fun n => (n, f n)) := by
  induction l generalizing acc with
  | nil => simp
  | cons x xs ih =>
    simp only [List.foldl_cons, List.map_cons]
    rw [ih]
    simp

/-- C2: when the shared precursor steps (label comparison and table
conversion, both before any per-pair work) succeed, the run returns one
result per registered pair — a failure of pair P's diff or annotation stage
is recorded as a failure result for P only, every pair's result depends only
on that pair's own stages, and no exception escapes the loop; the whole run
aborts exactly when one of the two precursor steps fails. -/
theorem pair_isolation (st : OrchestratorStages) (excel_data : String)
    (pair_names : List String) (P : String)
    (h1 : st.compare_labels = Except.ok excel_data)
    (h2 : st.convert_excel_to_csv excel_data = Except.ok pair_names) :
    (process_file_pairs st
      = Except.ok (pair_names.map (fun n => (n, run_pair st n))))
    ∧ (∀ e, st.run_diff_processor P = Except.error e →
        run_pair st P = ⟨P, false, none, none, some e⟩)
    ∧ (∀ dir e, st.run_diff_processor P = Except.ok dir →
        st.run_dxf_processor P dir = Except.error e →
        run_pair st P = ⟨P, false, none, none, some e⟩)
    ∧ (∀ st' : OrchestratorStages,
        (∀ n, n ≠ P → st'.run_diff_processor n = st.run_diff_processor n) →
        (∀ n, n ≠ P → st'.run_dxf_processor n = st.run_dxf_processor n) →
        ∀ n, n ≠ P → run_pair st' n = run_pair st n)
    ∧ (∀ st2 : OrchestratorStages, ∀ e2,
        process_file_pairs st2 = Except.error e2 →
        st2.compare_labels = Except.error e2 ∨
        ∃ x, st2.compare_labels = Except.ok x ∧
          st2.convert_excel_to_csv x = Except.error e2) := by
  refine ⟨?_, ?_, ?_, ?_, ?_⟩
  · unfold process_file_pairs
    rw [h1]
    dsimp only
    rw [h2]
    dsimp only
    rw [foldl_append_eq_map (fun n => run_pair st n) pair_names []]
    simp
  · intro e he
    unfold run_pair
    rw [he]
  · intro dir e hd he
    unfold run_pair
    rw [hd]
    dsimp only
    rw [he]
  · intro st' hdiff hdxf n hn
    unfold run_pair
    rw [hdiff n hn, hdxf n hn]
  · intro st2 e2 hp
    unfold process_file_pairs at hp
    cases hc : st2.compare_labels with
    | error e =>
      rw [hc] at hp
      dsimp only at hp
      cases hp
      exact Or.inl rfl
    | ok x =>
      rw [hc] at hp
      dsimp only at hp
      cases hv : st2.convert_excel_to_csv x with
      | error e =>
        rw [hv] at hp
        dsimp only at hp
        cases hp
        exact Or.inr ⟨x, rfl, hv⟩
      | ok names =>
        rw [hv] at hp
        dsimp only at hp
        cases hp

/-- Witness for `pair_isolation`: with three registered pairs where pair
"p2"'s diff stage raises, pairs "p1" and "p3" report success, "p2" reports a
failure result carrying the message, and the run returns normally. -/
theorem pair_isolation_witness :
    process_file_pairs
      ⟨Except.ok "xl", fun _ => Except.ok ["p1", "p2", "p3"],
        fun n => if n = "p2" then Except.error "boom"
          else Except.ok (String.append "dir_" n),
        fun n _ => Except.ok (String.append n "_a", String.append n "_b")⟩
      = Except.ok
        [("p1", ⟨"p1", true, some "p1_a", some "p1_b", none⟩),
         ("p2", ⟨"p2", false, none, none, some "boom"⟩),
         ("p3", ⟨"p3", true, some "p3_a", some "p3_b", none⟩)] := by
  have h := (pair_isolation
    ⟨Except.ok "xl", fun _ => Except.ok ["p1", "p2", "p3"],
      fun n => if n = "p2" then Except.error "boom"
        else Except.ok (String.append "dir_" n),
      fun n _ => Except.ok (String.append n "_a", String.append n "_b")⟩
    "xl" ["p1", "p2", "p3"] "p2" rfl rfl).1
  rw [h]
  rfl
